import Mathlib

/-!
Verification of the Shopify catalog scraper core.

A shallow embedding, in Lean 4, of the core logic of the scraper found in
`src/index.js` and `src/fns.js`:

* the per-variant output normalization performed by the `map` step of
  `extendOutputFunction` (availability, price coercion, identifier
  stringification, tag splitting),
* the variant attribute derivation `getVariantAttributes`,
* the generic extension-hook pipeline `extendFunction`,
* the robots.txt discovery resolver `checkForRobots` (including the
  `URLSearchParams.forEach`/`delete` query-stripping loop),
* the sitemap traversal `requestListFromSitemaps` (JS `Set` of freshly
  allocated mapped objects, leaf cap, recursive index expansion),
* the orchestrator's sitemap `filter` with its AND-accumulating
  `FILTER_SITEMAP_URL` hook callback.

JavaScript machine details are modelled explicitly where they matter:
key-presence (`'k' in obj`) is `Option`, `null` and `undefined` are distinct
values, number coercion `+x` returns `Option ℚ` (`none` = `NaN`; a rational
model is faithful for the zero/nonzero/NaN distinctions used here), object
identity in a `Set` is an allocation counter, and `URLSearchParams.forEach`
passes the *value* of each entry as the callback's first argument.
-/

/-! ## Generic string helpers (substring search, JS whitespace) -/

/-- `isPrefixL pat s` : `pat` is a literal prefix of `s` (char lists). -/
def isPrefixL : List Char → List Char → Bool
  | [], _ => true
  | _ :: _, [] => false
  | p :: ps, c :: cs => p = c && isPrefixL ps cs

/-- `containsL pat s` : `pat` occurs as a contiguous substring of `s`
(`String.prototype.includes` / a literal regex test). -/
def containsL (pat : List Char) : List Char → Bool
  | [] => isPrefixL pat []
  | s@(_ :: cs) => isPrefixL pat s || containsL pat cs

/-- `strContains s pat` : JS `s.includes(pat)`. -/
def strContains (s pat : String) : Bool := containsL pat.toList s.toList

/-- Case-insensitive substring test (for `/.../i` regex literals). -/
def strContainsCI (s pat : String) : Bool :=
  containsL (pat.toList.map Char.toLower) (s.toList.map Char.toLower)

/-- The JS whitespace characters relevant to this code base (`\s` and
`String.prototype.trim`); restricted to the ASCII whitespace class, which is
what appears in sitemap/tag data. -/
def isJsWs (c : Char) : Bool :=
  c = ' ' || c = '\t' || c = '\n' || c = '\r' || c = '\x0b' || c = '\x0c'

/-- Decidable equality of `Except` results (thrown error or value), used to
state concrete evaluations of fallible code. -/
instance instDecEqExcept {ε α : Type _} [DecidableEq ε] [DecidableEq α] :
    DecidableEq (Except ε α) := fun a b =>
  match a, b with
  | .ok x, .ok y =>
    if h : x = y then .isTrue (congrArg Except.ok h)
    else .isFalse (fun hh => h (Except.ok.inj hh))
  | .error x, .error y =>
    if h : x = y then .isTrue (congrArg Except.error h)
    else .isFalse (fun hh => h (Except.error.inj hh))
  | .ok _, .error _ => .isFalse (fun hh => Except.noConfusion hh)
  | .error _, .ok _ => .isFalse (fun hh => Except.noConfusion hh)

/-! ## C1 — availability (`src/index.js` lines 79–81)

```js
availability: 'inventory_quantity' in variant
    ? (variant.inventory_quantity > 0 ? 'in stock' : 'out of stock')
    : 'in stock',
```

The `in` operator tests key presence, so `inventory_quantity` is an
`Option`; the stored value may itself be a number or `null`. -/

/-- A JS value sitting under the `inventory_quantity` key. -/
inductive JQty where
  | qnum (q : ℚ)
  | qnull
deriving DecidableEq, Repr

/-- JS `x > 0` for the values `JQty` can take (`null > 0` is `false`). -/
def jsGtZero : JQty → Bool
  | .qnum q => 0 < q
  | .qnull => false

/-- The fields of a raw variant that the availability expression reads.
`inventory_quantity = none` models the key being absent; `available` is the
boolean sale-availability flag present in Shopify variant JSON (the code
never reads it). -/
structure AvailVariant where
  inventory_quantity : Option JQty
  available : Option Bool
deriving DecidableEq, Repr

/-- The `availability` expression of the output record
(`src/index.js:79-81`). -/
def availability (v : AvailVariant) : String :=
  match v.inventory_quantity with
  | some q => if jsGtZero q then "in stock" else "out of stock"
  | none => "in stock"

/-! ## C10 — price (`src/index.js` line 82): `price: +variant.price || null`

`+x` is JS ToNumber; `|| null` turns falsy results (`0`, `-0`, `NaN`) into
`null`. `NaN` is modelled as `none`; finite values as `ℚ` (exact for the
zero/nonzero distinction the expression makes). -/

/-- A JS value sitting under the `price` key. -/
inductive JPrice where
  | pnum (q : ℚ)
  | pstr (s : String)
  | pnull
  | pabsent
deriving DecidableEq, Repr

/-- Parse an unsigned decimal `digits [. digits]` chunk; returns the value
and the unconsumed rest. `none` when there is not a single digit on either
side of the point. -/
def parseDecimal (cs : List Char) : Option (ℚ × List Char) :=
  let intDigits := cs.takeWhile Char.isDigit
  let rest1 := cs.drop intDigits.length
  match rest1 with
  | '.' :: rest2 =>
    let fracDigits := rest2.takeWhile Char.isDigit
    let rest3 := rest2.drop fracDigits.length
    if intDigits.isEmpty && fracDigits.isEmpty then none
    else
      let intVal : ℕ := intDigits.foldl (fun a c => a * 10 + (c.toNat - '0'.toNat)) 0
      let fracVal : ℕ := fracDigits.foldl (fun a c => a * 10 + (c.toNat - '0'.toNat)) 0
      some ((intVal : ℚ) + (fracVal : ℚ) / ((10 : ℚ) ^ fracDigits.length), rest3)
  | _ =>
    if intDigits.isEmpty then none
    else
      let intVal : ℕ := intDigits.foldl (fun a c => a * 10 + (c.toNat - '0'.toNat)) 0
      some ((intVal : ℚ), rest1)

/-- JS `Number(string)` restricted to plain decimal notation (optional sign,
digits, optional fraction), which is the notation Shopify price strings use;
whitespace-trimmed, empty → `0`, anything else → `NaN` (`none`).
Exponent/hex/`Infinity` notations are outside this model. -/
def jsStringToNumber (s : String) : Option ℚ :=
  let cs := (s.toList.dropWhile isJsWs).reverse.dropWhile isJsWs |>.reverse
  match cs with
  | [] => some 0
  | '-' :: rest =>
    match parseDecimal rest with
    | some (q, []) => some (-q)
    | _ => none
  | '+' :: rest =>
    match parseDecimal rest with
    | some (q, []) => some q
    | _ => none
  | _ =>
    match parseDecimal cs with
    | some (q, []) => some q
    | _ => none

/-- JS ToNumber (`+x`) on the values `JPrice` can take: `+undefined = NaN`,
`+null = 0`. -/
def jsToNumber : JPrice → Option ℚ
  | .pnum q => some q
  | .pstr s => jsStringToNumber s
  | .pnull => some 0
  | .pabsent => none

/-- The `price` expression of the output record (`src/index.js:82`):
`+variant.price || null`. `NaN` and `0` are falsy, so both collapse to
`null` (`none`). -/
def priceOf (p : JPrice) : Option ℚ :=
  match jsToNumber p with
  | none => none
  | some q => if q = 0 then none else some q

/-! ## C4 — tags (`src/index.js` line 102 and `src/fns.js` line 192)

```js
tags: fns.uniqueNonEmptyArray((product.tags ?? '').split(/,\s*/g)),
export const uniqueNonEmptyArray = (arr) => [...new Set([...arr])].filter((s) => s);
```

`product.tags` may be a string, an array, or null/undefined. `??` replaces
only null/undefined by `''`; `.split` exists on strings only, so an array
value throws a `TypeError`. -/

/-- A JS value sitting under the `tags` key. -/
inductive JTags where
  | tstr (s : String)
  | tarr (xs : List String)
  | tabsent
deriving DecidableEq, Repr

/-- `String.prototype.split(/,\s*/g)` on char lists: cut at each comma and
swallow the whitespace run that follows the comma. `cur` accumulates the
current piece in reverse; `skipWs` is set right after a comma so that the
following whitespace run is consumed by the same separator match. -/
def splitCommaWsAux : List Char → List Char → Bool → List (List Char)
  | [], cur, _ => [cur.reverse]
  | c :: cs, cur, skipWs =>
    if skipWs && isJsWs c then splitCommaWsAux cs cur true
    else if c = ',' then cur.reverse :: splitCommaWsAux cs [] true
    else splitCommaWsAux cs (c :: cur) false

/-- JS `s.split(/,\s*/g)`. -/
def splitCommaWs (s : String) : List String :=
  (splitCommaWsAux s.toList [] false).map List.asString

/-- Insertion-ordered deduplication: `[...new Set(arr)]` keeps the first
occurrence of each element. `seen` carries the elements already emitted. -/
def jsSetDedup : List String → List String → List String
  | [], _ => []
  | x :: xs, seen =>
    if x ∈ seen then jsSetDedup xs seen else x :: jsSetDedup xs (x :: seen)

/-- `fns.uniqueNonEmptyArray` (`src/fns.js:192`): dedupe keeping first
occurrence, then drop falsy entries (for strings: the empty string). -/
def uniqueNonEmptyArray (arr : List String) : List String :=
  (jsSetDedup arr []).filter (fun s => s ≠ "")

/-- The `tags` expression (`src/index.js:102`): `(product.tags ?? '')` then
`.split(/,\s*/g)` then `uniqueNonEmptyArray`. An array value reaches
`.split` and throws. -/
def tagsOf : JTags → Except String (List String)
  | .tstr s => .ok (uniqueNonEmptyArray (splitCommaWs s))
  | .tarr _ => .error "TypeError: product.tags.split is not a function"
  | .tabsent => .ok (uniqueNonEmptyArray (splitCommaWs ""))

/-! ## C5 — identifiers (`src/index.js` lines 75 and 77)

```js
id: `${product.id}`,
sku: `${variant.sku || variant.id}`,
```

Template interpolation stringifies the value; nothing else is done to it. -/

/-- A Shopify id value: a JS (integer) number or a composite string. -/
inductive JsId where
  | num (n : ℤ)
  | str (s : String)
deriving DecidableEq, Repr

/-- JS template-literal stringification of a `JsId` (integers print in
decimal, strings interpolate unchanged). -/
def templateStringify : JsId → String
  | .num n => toString n
  | .str s => s

/-- The output record's `id` field (`src/index.js:75`). -/
def emittedProductId (productId : JsId) : String := templateStringify productId

/-- The output record's `sku` field (`src/index.js:77`):
`${variant.sku || variant.id}` — a falsy `sku` (absent or empty string)
falls back to the variant id. -/
def emittedSku (sku : Option String) (variantId : JsId) : String :=
  match sku with
  | some s => if s = "" then templateStringify variantId else s
  | none => templateStringify variantId

/-- Modelled from the spec: "a composite identifier string ending in a
numeric segment reduces to that numeric segment". Returns the maximal
trailing digit run, when nonempty. Used only to state what the spec claims
the code does; the code (`emittedProductId`) is compared against it. -/
def trailingNumericSegment (s : String) : Option String :=
  let ds := (s.toList.reverse.takeWhile Char.isDigit).reverse
  if ds.isEmpty then none else some ds.asString

/-! ## C6 — `getVariantAttributes` (`src/fns.js` lines 205–224)

```js
export const getVariantAttributes = (variant, product) => {
    const { options } = product;
    if (/(Default|title)/i.test(`${options[0]?.name}`)) {
        return { name: 'Default', props: {} };
    }
    const name = [];
    const props = {};
    for (let i = 0; i < options.length; i++) {
        const prop = `option${i + 1}`;
        if (variant[prop]) {
            props[options[i].name.toLowerCase()] = variant[prop];
            name.push(`${options[i].name}: ${variant[prop]}`);
        }
    }
    return { name: name.join(' / '), props };
};
```

`variant` is modelled by the list of its `option1`, `option2`, … values
(`opts.getD i none` is `variant[`option${i+1}`]`); `props` (a JS object
built by insertion) is modelled as the insertion-ordered association list. -/

/-- A declared product option (`product.options[i]`). -/
structure ProductOption where
  name : String
deriving DecidableEq, Repr

/-- The `option1`, `option2`, … fields of a variant: `opts.getD i none`
models `variant[`option${i+1}`]` (absent key → `undefined`). -/
structure VariantOpts where
  opts : List (Option String)
deriving DecidableEq, Repr

/-- JS truthiness of an option value: absent (`undefined`) and `''` are
falsy. -/
def optTruthy : Option String → Bool
  | some s => s ≠ ""
  | none => false

/-- `${options[0]?.name}` — template stringification of a possibly absent
name (`undefined` prints as `"undefined"`). -/
def stringifyOptName : Option String → String
  | some s => s
  | none => "undefined"

/-- The `/(Default|title)/i` regex test: a case-insensitive substring
search for `Default` or `title`. -/
def defaultSentinel (s : String) : Bool :=
  strContainsCI s "Default" || strContainsCI s "title"

/-- JS `String.prototype.toLowerCase` (ASCII case mapping suffices for
option names). -/
def jsToLower (s : String) : String := (s.toList.map Char.toLower).asString

/-- The `for (let i = 0; i < options.length; i++)` loop of
`getVariantAttributes`, over `options.enum = [(0, o₀), (1, o₁), …]`:
returns the `name` fragments and the `props` entries in push order. -/
def collectAttrs (variant : VariantOpts) : List (ℕ × ProductOption) → List String × List (String × String)
  | [] => ([], [])
  | (i, o) :: rest =>
    let v := variant.opts.getD i none
    let tailAcc := collectAttrs variant rest
    match v with
    | some s =>
      if s = "" then tailAcc
      else ((o.name ++ ": " ++ s) :: tailAcc.1, (jsToLower o.name, s) :: tailAcc.2)
    | none => tailAcc

/-- `fns.getVariantAttributes` (`src/fns.js:205-224`). Returns
`(name, props)`. -/
def getVariantAttributes (variant : VariantOpts) (options : List ProductOption) : String × List (String × String) :=
  if defaultSentinel (stringifyOptName ((options.head?).map ProductOption.name)) then
    ("Default", [])
  else
    let acc := collectAttrs variant options.enum
    (String.intercalate " / " acc.1, acc.2)

/-! ## C3 — the output stage of `extendFunction` (`src/fns.js` lines 426–449)

```js
return async (data, args) => {
    const merged = { ...base, ...args };
    for (const item of await splitMap(data, merged)) {
        if (filter && !(await filter({ data, item }, merged))) {
            continue;
        }
        const result = await (evaledFn.runInThisContext()({ ...merged, data, item }));
        for (const out of (Array.isArray(result) ? result : [result])) {
            if (output) {
                if (out !== null) {
                    await output(out, { ...merged, data, item });
                }
            }
        }
    }
};
```

with `splitMap` normalizing the built-in `map`'s result to an array
(`Array.isArray(mapped) ? mapped : [mapped]`). JS values are modelled by
`JValue` with `null` and `undefined` distinct; the compiled user hook is a
function of the invocation payload (the merged context plus the `data` and
`item` fields), and invocations are recorded so call counts can be
stated. -/

/-- A JS value flowing through the hook pipeline: `null`, `undefined`, an
(abstract) record, or an array. -/
inductive JValue where
  | vnull
  | vundef
  | vrec (tag : ℕ)
  | varr (elems : List JValue)
deriving Repr

/-- `Array.isArray`. -/
def isArray : JValue → Bool
  | .varr _ => true
  | _ => false

/-- `x === null`. -/
def isNullV : JValue → Bool
  | .vnull => true
  | _ => false

/-- `splitMap` (`src/fns.js:416-424`): apply the built-in `map` and
normalize to an array. -/
def splitMap (mapFn : JValue → JValue) (data : JValue) : List JValue :=
  match mapFn data with
  | .varr xs => xs
  | v => [v]

/-- `Array.isArray(result) ? result : [result]` on the user hook's return
value. -/
def normalizeResult : JValue → List JValue
  | .varr xs => xs
  | v => [v]

/-- One iteration body of the output loop, for a single candidate `item`
(the hook is invoked as `hook data item`; `output` is present, as in the
`extendOutputFunction` instantiation): returns the list of records handed
to `output`, i.e. the non-`null` elements of the normalized result. -/
def emitForItem (hook : JValue → JValue → JValue) (data item : JValue) : List JValue :=
  (normalizeResult (hook data item)).filter (fun out => !isNullV out)

/-- The compiled `extendFunction` runner (`src/fns.js:426-449`) for one
`data` payload: pushes each surviving candidate through the user hook and
collects `(invocations, emitted)` where `invocations` is the list of
`{data, item}` payloads the user hook was called with and `emitted` the
records forwarded to `output`, in order. -/
def extendFunctionRun (mapFn : JValue → JValue) (filterFn : Option (JValue → JValue → Bool))
    (hook : JValue → JValue → JValue) (data : JValue) : List (JValue × JValue) × List JValue :=
  (splitMap mapFn data).foldl
    (fun acc item =>
      match filterFn with
      | some f =>
        if !f data item then acc
        else (acc.1 ++ [(data, item)], acc.2 ++ emitForItem hook data item)
      | none => (acc.1 ++ [(data, item)], acc.2 ++ emitForItem hook data item))
    ([], [])

/-! ## C8 — the orchestrator's sitemap `filter` (`src/index.js` lines 150–177)

```js
filter: async (url) => {
    const isProduct = /\/products\//.test(url);
    const isSitemap = /sitemap_products_\d+/.test(url);
    if (isSitemap) { return true; }
    if (!isProduct) { return false; }
    let filtered = isProduct;
    const filter = (result) => { filtered = filtered && result; };
    await extendScraperFunction(undefined, { url, filter, label: 'FILTER_SITEMAP_URL' });
    return filtered;
};
```

The `FILTER_SITEMAP_URL` hook's interaction with the accumulator is fully
described by the ordered list of booleans it passes to the callback. -/

/-- `/\/products\//.test(url)`. -/
def isProductUrl (url : String) : Bool := strContains url "/products/"

/-- `hasSitemapPatternL s` : some position of `s` starts with the literal
`sitemap_products_` followed by a digit (`/sitemap_products_\d+/`). -/
def hasSitemapPatternL : List Char → Bool
  | [] => false
  | s@(_ :: rest) =>
    (isPrefixL "sitemap_products_".toList s &&
      match s.drop 17 with
      | c :: _ => c.isDigit
      | [] => false) ||
    hasSitemapPatternL rest

/-- `/sitemap_products_\d+/.test(url)`. -/
def isSitemapProductsUrl (url : String) : Bool := hasSitemapPatternL url.toList

/-- The boolean accumulator mutated by the `filter` callback: starting from
`filtered = isProduct` (`true` on this path), each hook call ANDs its
argument in. -/
def filterAccum (calls : List Bool) : Bool := calls.foldl (fun a b => a && b) true

/-- The orchestrator's sitemap `filter` decision (`src/index.js:150-177`),
parameterized by the ordered list of booleans the `FILTER_SITEMAP_URL` hook
passes to its `filter` callback during the invocation. -/
def sitemapFilterDecision (url : String) (hookCalls : List Bool) : Bool :=
  if isSitemapProductsUrl url then true
  else if !isProductUrl url then false
  else filterAccum hookCalls

/-! ## C7 — `checkForRobots` (`src/fns.js` lines 235–283)

```js
const baseUrl = new URL(url);
baseUrl.pathname = '/robots.txt';
baseUrl.searchParams.forEach((key) => {
    baseUrl.searchParams.delete(key);
});
...
if (!body) { throw new Error('Body is empty'); }
if (!body.includes('Shopify')) { throw new Error('Not a Shopify URL'); }
if (!body.includes('Sitemap: ')) { throw new Error('No sitemap URL'); }
const matches = body.match(/Sitemap: ([^$]+?)$/m);
if (!matches?.[1]) { throw new Error('Failing to find sitemap URL'); }
filteredSitemapUrls.add(matches[1]);
```

wrapped in a per-seed `try`/`catch` that logs and continues.
`URLSearchParams.prototype.forEach` passes `(value, key, parent)` to its
callback, so the parameter named `key` above receives each entry's VALUE,
and `delete` is called with that value. The iteration walks the live entry
list by index. -/

/-- The `searchParams.forEach((key) => searchParams.delete(key))` loop: the
entry list is `(name, value)` pairs; at position `i` the callback receives
the entry's value `v` and `delete(v)` removes every entry whose NAME is
`v`; then the index advances. -/
def stripParamsLoop : ℕ → List (String × String) → ℕ → List (String × String)
  | 0, ps, _ => ps
  | fuel + 1, ps, i =>
    match ps.get? i with
    | some e => stripParamsLoop fuel (ps.filter (fun q => q.1 ≠ e.2)) (i + 1)
    | none => ps

/-- The query parameters of the robots.txt request URL, as left by the
`forEach`/`delete` loop applied to the seed URL's parameters
(`src/fns.js:238-241`). The index grows by one per step and the list never
grows, so `seedParams.length` steps of fuel always reach the loop's exit. -/
def robotsRequestParams (seedParams : List (String × String)) : List (String × String) :=
  stripParamsLoop seedParams.length seedParams 0

/-- JS multiline `$`: a match may end here iff the rest of the input is
empty or starts with a line terminator. -/
def atLineEnd : List Char → Bool
  | [] => true
  | c :: _ => c = '\n' || c = '\r'

/-- The lazy group of `/Sitemap: ([^$]+?)$/m` evaluated at a fixed start:
the shortest nonempty prefix made of non-`'$'` characters whose end is a
line end. -/
def lazyCaptureToLineEnd : List Char → Option (List Char)
  | [] => none
  | c :: cs =>
    if c = '$' then none
    else if atLineEnd cs then some [c]
    else (lazyCaptureToLineEnd cs).map (fun g => c :: g)

/-- `body.match(/Sitemap: ([^$]+?)$/m)`: scan for the leftmost position
where the literal `Sitemap: ` matches and the capture succeeds; return the
captured group. -/
def findSitemapMatch : List Char → Option (List Char)
  | [] => none
  | s@(_ :: rest) =>
    if isPrefixL "Sitemap: ".toList s then
      match lazyCaptureToLineEnd (s.drop 9) with
      | some cap => some cap
      | none => findSitemapMatch rest
    else findSitemapMatch rest

/-- The robots.txt response as the resolver sees it for one seed: the
status code and the body (`none` = no usable body; JS `!body` also treats
`''` as missing, which `checkRobotsBody` handles). -/
structure RobotsResponse where
  statusCode : ℕ
  body : Option String
deriving DecidableEq, Repr

/-- The per-seed body of `checkForRobots` after the fetch
(`src/fns.js:254-278`): every failure is a thrown error (`Except.error`);
on success the extracted sitemap URL is returned. -/
def checkRobotsBody (resp : RobotsResponse) : Except String String :=
  if !(resp.statusCode = 200 || resp.statusCode = 301 || resp.statusCode = 302) then
    .error ("Status code " ++ toString resp.statusCode)
  else
    match resp.body with
    | none => .error "Body is empty"
    | some body =>
      if body = "" then .error "Body is empty"
      else if !strContains body "Shopify" then .error "Not a Shopify URL"
      else if !strContains body "Sitemap: " then .error "No sitemap URL"
      else
        match findSitemapMatch body.toList with
        | some cap => if cap.asString = "" then .error "Failing to find sitemap URL" else .ok cap.asString
        | none => .error "Failing to find sitemap URL"

/-- Ordered-set insertion for `filteredSitemapUrls.add` (a JS `Set` of
strings: string values, so value equality; no-op on repeats). -/
def setAddStr (s : List String) (x : String) : List String :=
  if x ∈ s then s else s ++ [x]

/-- `checkForRobots` (`src/fns.js:235-283`): fold over all seeds; a per-seed
failure is caught and skipped (the set is unchanged), a success adds the
extracted URL. The seed's robots response is supplied by `env`. -/
def checkForRobots (env : ℕ → RobotsResponse) (seeds : List ℕ) (filteredSitemapUrls : List String) : List String :=
  seeds.foldl
    (fun acc seed =>
      match checkRobotsBody (env seed) with
      | .ok u => setAddStr acc u
      | .error _ => acc)
    filteredSitemapUrls

/-! ## C2 / C9 — `requestListFromSitemaps` (`src/fns.js` lines 92–182)

```js
const urls = new Set();
const cleanup = (url) => `${url}`.replace(/[\n\r]/g, '').trim();
...
handleRequestFunction: async ({ request }) => {
    ...
    for (const el of $('url loc')) {
        const url = cleanup($(el).text());
        if (await filter(url)) {
            const limited = limit > 0 ? urls.size >= limit : false;
            if (!limited) { urls.add(map(url)); } else { break; }
        }
    }
    for (const el of $('sitemap loc')) {
        const url = cleanup($(el).text());
        if (await filter(url)) {
            await requestQueue.addRequest({ url });
            count++;
        }
    }
},
```

and with `map(url)` in `src/index.js:178-188` returning a fresh object
literal per call. The network/XML layer is an environment
`docs : String → SitemapDoc` giving the `<url><loc>` and `<sitemap><loc>`
entries of each fetched document. `urls` is a JS `Set` whose members are
the objects returned by `map`; a `Set` compares objects by reference, and
each `map` call allocates, so members are modelled as `(allocationId,
target)` pairs with a running counter. The crawler's scheduling is a work
list: the seed request list followed by whatever `requestQueue.addRequest`
appended (the collaborator's URL-dedup of the queue is immaterial to the
claims proved here), with an explicit fuel bound. -/

/-- The parse of one sitemap document. -/
structure SitemapDoc where
  leafLocs : List String
  indexLocs : List String
deriving DecidableEq, Repr

/-- The orchestrator's `map` result (`src/index.js:178-188`): the request
options object built for one accepted leaf URL. -/
structure CrawlTarget where
  url : String
  userDataUrl : String
  label : String
deriving DecidableEq, Repr

/-- `map` from `src/index.js:178-188`. -/
def orchestratorMap (fetchHtml : Bool) (url : String) : CrawlTarget :=
  { url := if fetchHtml then url else url ++ ".json"
    userDataUrl := url
    label := if fetchHtml then "HTML" else "JSON" }

/-- `cleanup` (`src/fns.js:105`): drop `\n`/`\r` everywhere, then trim. -/
def cleanup (s : String) : String :=
  let noNl := s.toList.filter (fun c => !(c = '\n' || c = '\r'))
  (((noNl.dropWhile isJsWs).reverse.dropWhile isJsWs).reverse).asString

/-- The mutable state of one `requestListFromSitemaps` run: the `urls` set
(allocation-tagged mapped objects), the raw accepted leaf URLs in add
order (`addedUrls`, kept in lockstep with `urls` for specification), the
allocation counter, the URLs pushed to the request queue, the documents
enumerated so far, and the `count` statistic. -/
structure TravState where
  urls : List (ℕ × CrawlTarget)
  addedUrls : List String
  nextAlloc : ℕ
  queued : List String
  processed : List String
  count : ℕ
deriving DecidableEq, Repr

/-- The initial state (`urls = new Set()`, `count = 1`). -/
def initTravState : TravState :=
  { urls := [], addedUrls := [], nextAlloc := 0, queued := [], processed := [], count := 1 }

/-- The `limited` ternary (`src/fns.js:149-151`):
`limit > 0 ? urls.size >= limit : false`. -/
def leafCapReached (limit : ℕ) (st : TravState) : Bool :=
  if 0 < limit then limit ≤ st.urls.length else false

/-- The `for (const el of $('url loc'))` loop for one document:
filter each cleaned leaf, respect the soft cap (`break`), and add the
freshly allocated `map(url)` object to the set. -/
def processLeaves (filter : String → Bool) (mapFn : String → CrawlTarget) (limit : ℕ) :
    List String → TravState → TravState
  | [], st => st
  | l :: rest, st =>
    let u := cleanup l
    if filter u then
      if leafCapReached limit st then st
      else
        processLeaves filter mapFn limit rest
          { st with
            urls := st.urls ++ [(st.nextAlloc, mapFn u)]
            addedUrls := st.addedUrls ++ [u]
            nextAlloc := st.nextAlloc + 1 }
    else processLeaves filter mapFn limit rest st

/-- The `for (const el of $('sitemap loc'))` loop for one document: each
accepted cleaned index URL is pushed to the request queue. -/
def processIndexes (filter : String → Bool) : List String → TravState → TravState
  | [], st => st
  | l :: rest, st =>
    let u := cleanup l
    if filter u then
      processIndexes filter rest { st with queued := st.queued ++ [u], count := st.count + 1 }
    else processIndexes filter rest st

/-- `handleRequestFunction` for one fetched sitemap document. -/
def handleSitemapRequest (filter : String → Bool) (mapFn : String → CrawlTarget) (limit : ℕ)
    (docs : String → SitemapDoc) (reqUrl : String) (st : TravState) : TravState :=
  let st1 := { st with processed := st.processed ++ [reqUrl] }
  let st2 := processLeaves filter mapFn limit (docs reqUrl).leafLocs st1
  processIndexes filter (docs reqUrl).indexLocs st2

/-- The crawler drains the seed request list and then every URL
`requestQueue.addRequest` appended, up to `fuel` documents. -/
def runTraversal (filter : String → Bool) (mapFn : String → CrawlTarget) (limit : ℕ)
    (docs : String → SitemapDoc) : ℕ → List String → TravState → TravState
  | 0, _, st => st
  | _ + 1, [], st => st
  | fuel + 1, u :: rest, st =>
    let st2 := handleSitemapRequest filter mapFn limit docs u st
    runTraversal filter mapFn limit docs fuel (rest ++ st2.queued.drop st.queued.length) st2

/-! ## Spec-side formulations and concrete scenarios used by the theorems -/

/-- The option/value pairs the loop of `getVariantAttributes` actually acts
on: for each enumerated option slot, the variant's truthy value at that
slot. Stated independently of the loop so the loop can be proved equal to
it. -/
def truthyOptionPairs (variant : VariantOpts) (l : List (ℕ × ProductOption)) : List (ProductOption × String) :=
  l.filterMap fun p =>
    match variant.opts.getD p.1 none with
    | some s => if s = "" then none else some (p.2, s)
    | none => none

/-- A two-root sitemap environment in which both roots list the same
product leaf, exercising re-discovery of one leaf via two branches. -/
def twoBranchDocs : String → SitemapDoc := fun s =>
  if s = "https://a.example/sitemap.xml" then ⟨["https://shop.example/products/p"], []⟩
  else if s = "https://b.example/sitemap.xml" then ⟨["https://shop.example/products/p"], []⟩
  else ⟨[], []⟩

/-- The traversal of `twoBranchDocs` from both roots, with the
orchestrator's JSON `map` and no cap. -/
def twoBranchRun : TravState :=
  runTraversal isProductUrl (orchestratorMap false) 0 twoBranchDocs 5
    ["https://a.example/sitemap.xml", "https://b.example/sitemap.xml"] initTravState

/-- A one-root sitemap environment whose root lists one product-sitemap
index, one unrelated (to-be-rejected) index, and no leaves; the product
index has one product leaf. -/
def rejectedIndexDocs : String → SitemapDoc := fun s =>
  if s = "https://shop.example/sitemap.xml" then
    ⟨[], ["https://shop.example/sitemap_products_1.xml", "https://shop.example/blog-sitemap.xml"]⟩
  else if s = "https://shop.example/sitemap_products_1.xml" then
    ⟨["https://shop.example/products/p1"], []⟩
  else ⟨[], []⟩

/-- The orchestrator's default filter decision with a hook that never calls
the callback (`hookCalls = []`). -/
def defaultSitemapFilter (url : String) : Bool := sitemapFilterDecision url []

/-- The traversal of `rejectedIndexDocs` from the root, with the
orchestrator's default filter. -/
def rejectedIndexRun : TravState :=
  runTraversal defaultSitemapFilter (orchestratorMap false) 0 rejectedIndexDocs 5
    ["https://shop.example/sitemap.xml"] initTravState

/-! ## Helper lemmas -/

/-- The AND-accumulator equals the AND-reduction of the call list. -/
theorem foldl_and_eq (l : List Bool) : ∀ a : Bool, l.foldl (fun x y => x && y) a = (a && l.all id) := by
  induction l with
  | nil => intro a; simp
  | cons b t ih =>
    intro a
    simp only [List.foldl_cons, List.all_cons, ih (a && b), Bool.and_assoc, id]

/-- `filterAccum` is the AND-reduction of the booleans passed in. -/
theorem filterAccum_eq_all (l : List Bool) : filterAccum l = l.all id := by
  simp [filterAccum, foldl_and_eq]

/-- Membership in `jsSetDedup`: an element survives iff it occurs in the
input and was not already emitted. -/
theorem jsSetDedup_mem : ∀ (xs seen : List String) (y : String),
    y ∈ jsSetDedup xs seen ↔ y ∈ xs ∧ y ∉ seen := by
  intro xs
  induction xs with
  | nil => intro seen y; simp [jsSetDedup]
  | cons x t ih =>
    intro seen y
    by_cases hx : x ∈ seen
    · simp only [jsSetDedup, if_pos hx, ih, List.mem_cons]
      constructor
      · rintro ⟨hy, hns⟩; exact ⟨Or.inr hy, hns⟩
      · rintro ⟨hy | hy, hns⟩
        · exact absurd (hy ▸ hx) hns
        · exact ⟨hy, hns⟩
    · simp only [jsSetDedup, if_neg hx, List.mem_cons, ih, List.mem_cons]
      constructor
      · rintro (hy | ⟨hy, hns⟩)
        · exact ⟨Or.inl hy, hy ▸ hx⟩
        · exact ⟨Or.inr hy, fun hsn => hns (Or.inr hsn)⟩
      · rintro ⟨hy | hy, hns⟩
        · exact Or.inl hy
        · by_cases hyx : y = x
          · exact Or.inl hyx
          · exact Or.inr ⟨hy, fun hc => hns (hc.resolve_left hyx)⟩

/-- `jsSetDedup` is a sublist of its input (order preserved). -/
theorem jsSetDedup_sublist : ∀ (xs seen : List String), (jsSetDedup xs seen).Sublist xs := by
  intro xs
  induction xs with
  | nil => intro seen; simp [jsSetDedup]
  | cons x t ih =>
    intro seen
    by_cases hx : x ∈ seen
    · simpa [jsSetDedup, if_pos hx] using (ih seen).cons x
    · simpa [jsSetDedup, if_neg hx] using (ih (x :: seen)).cons₂ x

/-- `jsSetDedup` has no duplicates. -/
theorem jsSetDedup_nodup : ∀ (xs seen : List String), (jsSetDedup xs seen).Nodup := by
  intro xs
  induction xs with
  | nil => intro seen; simp [jsSetDedup]
  | cons x t ih =>
    intro seen
    by_cases hx : x ∈ seen
    · simpa [jsSetDedup, if_pos hx] using ih seen
    · simp only [jsSetDedup, if_neg hx, List.nodup_cons]
      refine ⟨fun hc => ?_, ih (x :: seen)⟩
      exact ((jsSetDedup_mem t (x :: seen) x).mp hc).2 (List.mem_cons_self x seen)

/-- Membership in `uniqueNonEmptyArray`. -/
theorem uniqueNonEmptyArray_mem (arr : List String) (y : String) :
    y ∈ uniqueNonEmptyArray arr ↔ y ∈ arr ∧ y ≠ "" := by
  simp [uniqueNonEmptyArray, List.mem_filter, jsSetDedup_mem]

/-- `uniqueNonEmptyArray` has no duplicates. -/
theorem uniqueNonEmptyArray_nodup (arr : List String) : (uniqueNonEmptyArray arr).Nodup :=
  (jsSetDedup_nodup arr []).filter _

/-- `uniqueNonEmptyArray` preserves first-occurrence order: it is a sublist
of its input. -/
theorem uniqueNonEmptyArray_sublist (arr : List String) :
    (uniqueNonEmptyArray arr).Sublist arr :=
  (List.filter_sublist _).trans (jsSetDedup_sublist arr [])

/-- The loop of `getVariantAttributes` computes exactly the fragments and
props of the truthy option/value pairs. -/
theorem collectAttrs_eq (variant : VariantOpts) : ∀ l : List (ℕ × ProductOption),
    collectAttrs variant l =
      ((truthyOptionPairs variant l).map (fun p => p.1.name ++ ": " ++ p.2),
       (truthyOptionPairs variant l).map (fun p => (jsToLower p.1.name, p.2))) := by
  intro l
  induction l with
  | nil => simp [collectAttrs, truthyOptionPairs]
  | cons p t ih =>
    obtain ⟨i, o⟩ := p
    simp only [collectAttrs, truthyOptionPairs, List.filterMap_cons] at ih ⊢
    cases hv : variant.opts.getD i none with
    | none => simpa [hv] using ih
    | some s =>
      by_cases hs : s = ""
      · simpa [hv, hs] using ih
      · simp [hv, hs, ih, truthyOptionPairs]

/-- The leaf loop never touches the request queue. -/
theorem processLeaves_queued (f : String → Bool) (mapFn : String → CrawlTarget) (limit : ℕ) :
    ∀ (ls : List String) (st : TravState), (processLeaves f mapFn limit ls st).queued = st.queued := by
  intro ls
  induction ls with
  | nil => intro st; rfl
  | cons l t ih =>
    intro st
    simp only [processLeaves]
    split
    · split
      · rfl
      · exact ih _
    · exact ih st

/-- The leaf loop never touches the processed-document log. -/
theorem processLeaves_processed (f : String → Bool) (mapFn : String → CrawlTarget) (limit : ℕ) :
    ∀ (ls : List String) (st : TravState), (processLeaves f mapFn limit ls st).processed = st.processed := by
  intro ls
  induction ls with
  | nil => intro st; rfl
  | cons l t ih =>
    intro st
    simp only [processLeaves]
    split
    · split
      · rfl
      · exact ih _
    · exact ih st

/-- Everything the leaf loop adds to `addedUrls` passed the filter. -/
theorem processLeaves_addedUrls_mem (f : String → Bool) (mapFn : String → CrawlTarget) (limit : ℕ) :
    ∀ (ls : List String) (st : TravState) (v : String),
      v ∈ (processLeaves f mapFn limit ls st).addedUrls → v ∈ st.addedUrls ∨ f v = true := by
  intro ls
  induction ls with
  | nil => intro st v hv; exact Or.inl hv
  | cons l t ih =>
    intro st v hv
    simp only [processLeaves] at hv
    split at hv
    · rename_i hf
      split at hv
      · exact Or.inl hv
      · rcases ih _ v hv with hold | hfv
        · simp only [List.mem_append, List.mem_singleton] at hold
          rcases hold with h1 | h2
          · exact Or.inl h1
          · exact Or.inr (h2 ▸ hf)
        · exact Or.inr hfv
    · exact ih st v hv

/-- The leaf loop keeps `urls` and `addedUrls` in lockstep: the targets are
exactly the mapped added URLs. -/
theorem processLeaves_lockstep (f : String → Bool) (mapFn : String → CrawlTarget) (limit : ℕ) :
    ∀ (ls : List String) (st : TravState),
      st.urls.map Prod.snd = st.addedUrls.map mapFn →
      (processLeaves f mapFn limit ls st).urls.map Prod.snd =
        (processLeaves f mapFn limit ls st).addedUrls.map mapFn := by
  intro ls
  induction ls with
  | nil => intro st h; exact h
  | cons l t ih =>
    intro st h
    simp only [processLeaves]
    split
    · split
      · exact h
      · exact ih _ (by simp [h])
    · exact ih st h

/-- The index loop never touches the result set. -/
theorem processIndexes_urls (f : String → Bool) :
    ∀ (ls : List String) (st : TravState), (processIndexes f ls st).urls = st.urls := by
  intro ls
  induction ls with
  | nil => intro st; rfl
  | cons l t ih =>
    intro st
    simp only [processIndexes]
    split
    · exact ih _
    · exact ih st

/-- The index loop never touches `addedUrls`: indexes, accepted or not, are
never added to the result set. -/
theorem processIndexes_addedUrls (f : String → Bool) :
    ∀ (ls : List String) (st : TravState), (processIndexes f ls st).addedUrls = st.addedUrls := by
  intro ls
  induction ls with
  | nil => intro st; rfl
  | cons l t ih =>
    intro st
    simp only [processIndexes]
    split
    · exact ih _
    · exact ih st

/-- The index loop never touches the processed-document log. -/
theorem processIndexes_processed (f : String → Bool) :
    ∀ (ls : List String) (st : TravState), (processIndexes f ls st).processed = st.processed := by
  intro ls
  induction ls with
  | nil => intro st; rfl
  | cons l t ih =>
    intro st
    simp only [processIndexes]
    split
    · exact ih _
    · exact ih st

/-- Everything the index loop enqueues passed the filter. -/
theorem processIndexes_queued_mem (f : String → Bool) :
    ∀ (ls : List String) (st : TravState) (v : String),
      v ∈ (processIndexes f ls st).queued → v ∈ st.queued ∨ f v = true := by
  intro ls
  induction ls with
  | nil => intro st v hv; exact Or.inl hv
  | cons l t ih =>
    intro st v hv
    simp only [processIndexes] at hv
    split at hv
    · rename_i hf
      rcases ih _ v hv with hold | hfv
      · simp only [List.mem_append, List.mem_singleton] at hold
        rcases hold with h1 | h2
        · exact Or.inl h1
        · exact Or.inr (h2 ▸ hf)
      · exact Or.inr hfv
    · exact ih st v hv

/-- One document step appends exactly the document's URL to the processed
log. -/
theorem handleSitemapRequest_processed (f : String → Bool) (mapFn : String → CrawlTarget)
    (limit : ℕ) (docs : String → SitemapDoc) (reqUrl : String) (st : TravState) :
    (handleSitemapRequest f mapFn limit docs reqUrl st).processed = st.processed ++ [reqUrl] := by
  simp [handleSitemapRequest, processIndexes_processed, processLeaves_processed]

/-- Everything a document step enqueues passed the filter. -/
theorem handleSitemapRequest_queued_mem (f : String → Bool) (mapFn : String → CrawlTarget)
    (limit : ℕ) (docs : String → SitemapDoc) (reqUrl : String) (st : TravState) (v : String) :
    v ∈ (handleSitemapRequest f mapFn limit docs reqUrl st).queued → v ∈ st.queued ∨ f v = true := by
  intro hv
  rcases processIndexes_queued_mem f _ _ v hv with h1 | h2
  · rw [processLeaves_queued] at h1
    exact Or.inl h1
  · exact Or.inr h2

/-- Everything a document step adds to the result passed the filter. -/
theorem handleSitemapRequest_addedUrls_mem (f : String → Bool) (mapFn : String → CrawlTarget)
    (limit : ℕ) (docs : String → SitemapDoc) (reqUrl : String) (st : TravState) (v : String) :
    v ∈ (handleSitemapRequest f mapFn limit docs reqUrl st).addedUrls → v ∈ st.addedUrls ∨ f v = true := by
  intro hv
  rw [handleSitemapRequest, processIndexes_addedUrls] at hv
  rcases processLeaves_addedUrls_mem f mapFn limit _ _ v hv with h1 | h2
  · exact Or.inl h1
  · exact Or.inr h2

/-- One document step keeps `urls` and `addedUrls` in lockstep. -/
theorem handleSitemapRequest_lockstep (f : String → Bool) (mapFn : String → CrawlTarget)
    (limit : ℕ) (docs : String → SitemapDoc) (reqUrl : String) (st : TravState)
    (h : st.urls.map Prod.snd = st.addedUrls.map mapFn) :
    (handleSitemapRequest f mapFn limit docs reqUrl st).urls.map Prod.snd =
      (handleSitemapRequest f mapFn limit docs reqUrl st).addedUrls.map mapFn := by
  rw [handleSitemapRequest, processIndexes_urls, processIndexes_addedUrls]
  exact processLeaves_lockstep f mapFn limit _ _ h

/-- A URL rejected by the filter and absent from the pending work list and
from the current state is never enqueued, never enumerated, and never added
to the result, whatever the run does. -/
theorem runTraversal_avoids (f : String → Bool) (mapFn : String → CrawlTarget)
    (limit : ℕ) (docs : String → SitemapDoc) (u : String) (hu : f u = false) :
    ∀ (fuel : ℕ) (wl : List String) (st : TravState),
      u ∉ wl → u ∉ st.queued → u ∉ st.processed → u ∉ st.addedUrls →
      u ∉ (runTraversal f mapFn limit docs fuel wl st).queued ∧
      u ∉ (runTraversal f mapFn limit docs fuel wl st).processed ∧
      u ∉ (runTraversal f mapFn limit docs fuel wl st).addedUrls := by
  intro fuel
  induction fuel with
  | zero => intro wl st _ hq hp ha; exact ⟨hq, hp, ha⟩
  | succ n ih =>
    intro wl st hwl hq hp ha
    cases wl with
    | nil => exact ⟨hq, hp, ha⟩
    | cons w rest =>
      have hws : u ≠ w := fun hc => hwl (hc ▸ List.mem_cons_self w rest)
      have hrest : u ∉ rest := fun hc => hwl (List.mem_cons_of_mem w hc)
      simp only [runTraversal]
      have hq2 : u ∉ (handleSitemapRequest f mapFn limit docs w st).queued := by
        intro hc
        rcases handleSitemapRequest_queued_mem f mapFn limit docs w st u hc with h1 | h2
        · exact hq h1
        · rw [hu] at h2; exact Bool.false_ne_true h2
      have hp2 : u ∉ (handleSitemapRequest f mapFn limit docs w st).processed := by
        rw [handleSitemapRequest_processed]
        intro hc
        rcases List.mem_append.mp hc with h1 | h2
        · exact hp h1
        · exact hws (List.mem_singleton.mp h2)
      have ha2 : u ∉ (handleSitemapRequest f mapFn limit docs w st).addedUrls := by
        intro hc
        rcases handleSitemapRequest_addedUrls_mem f mapFn limit docs w st u hc with h1 | h2
        · exact ha h1
        · rw [hu] at h2; exact Bool.false_ne_true h2
      have hwl2 : u ∉ rest ++ (handleSitemapRequest f mapFn limit docs w st).queued.drop st.queued.length := by
        intro hc
        rcases List.mem_append.mp hc with h1 | h2
        · exact hrest h1
        · exact hq2 (List.drop_subset _ _ h2)
      exact ih _ _ hwl2 hq2 hp2 ha2

/-- Every URL in the final result passed the filter, provided that held of
the starting state. -/
theorem runTraversal_addedUrls_filter (f : String → Bool) (mapFn : String → CrawlTarget)
    (limit : ℕ) (docs : String → SitemapDoc) :
    ∀ (fuel : ℕ) (wl : List String) (st : TravState),
      (∀ v ∈ st.addedUrls, f v = true) →
      ∀ v ∈ (runTraversal f mapFn limit docs fuel wl st).addedUrls, f v = true := by
  intro fuel
  induction fuel with
  | zero => intro wl st h; exact h
  | succ n ih =>
    intro wl st h
    cases wl with
    | nil => exact h
    | cons w rest =>
      simp only [runTraversal]
      refine ih _ _ fun v hv => ?_
      rcases handleSitemapRequest_addedUrls_mem f mapFn limit docs w st v hv with h1 | h2
      · exact h v h1
      · exact h2

/-- The whole run keeps `urls` and `addedUrls` in lockstep. -/
theorem runTraversal_lockstep (f : String → Bool) (mapFn : String → CrawlTarget)
    (limit : ℕ) (docs : String → SitemapDoc) :
    ∀ (fuel : ℕ) (wl : List String) (st : TravState),
      st.urls.map Prod.snd = st.addedUrls.map mapFn →
      (runTraversal f mapFn limit docs fuel wl st).urls.map Prod.snd =
        (runTraversal f mapFn limit docs fuel wl st).addedUrls.map mapFn := by
  intro fuel
  induction fuel with
  | zero => intro wl st h; exact h
  | succ n ih =>
    intro wl st h
    cases wl with
    | nil => exact h
    | cons w rest =>
      simp only [runTraversal]
      exact ih _ _ (handleSitemapRequest_lockstep f mapFn limit docs w st h)

/-! ## Claim theorems -/

/-- C1 (counterexample): the claim asserts that a variant with no resolvable
stock count and no sale-availability flag gets availability "out of stock";
at that concrete input the code instead yields "in stock". -/
theorem c1_availability_cex :
    availability ⟨none, none⟩ = "in stock" ∧ availability ⟨none, none⟩ ≠ "out of stock" := by
  constructor
  · rfl
  · intro h
    exact absurd h (by decide)

/-- C1 (amended): availability is decided solely by the presence of the
`inventory_quantity` key — present and positive gives "in stock", present
and zero, negative or null gives "out of stock", and an absent key gives
"in stock" unconditionally; the sale-availability flag is never consulted
(there is no fallback to it). -/
theorem c1_availability_amended :
    (∀ iq a b, availability ⟨iq, a⟩ = availability ⟨iq, b⟩) ∧
    (∀ (q : ℚ) a, 0 < q → availability ⟨some (JQty.qnum q), a⟩ = "in stock") ∧
    (∀ (q : ℚ) a, q ≤ 0 → availability ⟨some (JQty.qnum q), a⟩ = "out of stock") ∧
    (∀ a, availability ⟨some JQty.qnull, a⟩ = "out of stock") ∧
    (∀ a, availability ⟨none, a⟩ = "in stock") := by
  refine ⟨fun iq a b => rfl, fun q a hq => ?_, fun q a hq => ?_, fun a => rfl, fun a => rfl⟩
  · simp [availability, jsGtZero, hq]
  · simp [availability, jsGtZero, not_lt.mpr hq]

/-- C1 (witness): the amended availability rule evaluated at stock count 5,
stock count 0, and an absent stock count with sale flag true. -/
theorem c1_availability_amended_witness :
    (0 : ℚ) < 5 ∧ availability ⟨some (JQty.qnum 5), none⟩ = "in stock" ∧
    (0 : ℚ) ≤ 0 ∧ availability ⟨some (JQty.qnum 0), some true⟩ = "out of stock" ∧
    availability ⟨none, some true⟩ = "in stock" :=
  ⟨by norm_num, c1_availability_amended.2.1 5 none (by norm_num),
   le_refl 0, c1_availability_amended.2.2.1 0 (some true) (le_refl 0),
   c1_availability_amended.2.2.2.2 (some true)⟩

/-- C10: the emitted price is null when the raw price is absent,
non-numeric, null, or numerically zero (including the string "0.00"), and
is the coerced number when that number is nonzero. -/
theorem c10_price_null_iff_falsy :
    priceOf JPrice.pabsent = none ∧
    priceOf JPrice.pnull = none ∧
    (∀ s, jsStringToNumber s = none → priceOf (JPrice.pstr s) = none) ∧
    (∀ q : ℚ, priceOf (JPrice.pnum q) = if q = 0 then none else some q) ∧
    (∀ s (q : ℚ), jsStringToNumber s = some q → q ≠ 0 → priceOf (JPrice.pstr s) = some q) ∧
    priceOf (JPrice.pstr "0.00") = none ∧
    priceOf (JPrice.pstr "abc") = none := by
  refine ⟨rfl, rfl, fun s hs => ?_, fun q => rfl, fun s q hs hq => ?_, ?_, rfl⟩
  · simp [priceOf, jsToNumber, hs]
  · simp [priceOf, jsToNumber, hs, hq]
  · simp +decide [priceOf, jsToNumber, jsStringToNumber, parseDecimal, isJsWs]

/-- C10 (witness): the nonzero-string case evaluated at "7.50". -/
theorem c10_price_null_iff_falsy_witness :
    jsStringToNumber "7.50" = some (15 / 2) ∧ (15 / 2 : ℚ) ≠ 0 ∧
    priceOf (JPrice.pstr "7.50") = some (15 / 2) := by
  have h : jsStringToNumber "7.50" = some (15 / 2) := by
    simp +decide [jsStringToNumber, parseDecimal, isJsWs]
    norm_num
  have hq : (15 / 2 : ℚ) ≠ 0 := by norm_num
  exact ⟨h, hq, c10_price_null_iff_falsy.2.2.2.2.1 "7.50" (15 / 2) h hq⟩

/-- C5 (counterexample): the claim asserts that a platform-prefixed
composite identifier ending in a numeric segment is emitted as that
trailing segment; on the concrete composite id the code emits the full
string, not the trailing "123". -/
theorem c5_identifier_cex :
    trailingNumericSegment "gid://shopify/Product/123" = some "123" ∧
    emittedProductId (JsId.str "gid://shopify/Product/123") = "gid://shopify/Product/123" ∧
    emittedProductId (JsId.str "gid://shopify/Product/123") ≠ "123" := by
  refine ⟨by decide, rfl, by decide⟩

/-- C5 (amended): the emitted id and sku are the identifier coerced to a
string, unchanged — a composite identifier is NOT reduced to its trailing
numeric segment, and a plain numeric identifier is emitted as its decimal
string; a falsy sku falls back to the stringified variant id. -/
theorem c5_identifier_amended :
    (∀ s, emittedProductId (JsId.str s) = s) ∧
    (∀ n : ℤ, emittedProductId (JsId.num n) = toString n) ∧
    (∀ vid, emittedSku none vid = templateStringify vid) ∧
    (∀ vid, emittedSku (some "") vid = templateStringify vid) ∧
    (∀ s vid, s ≠ "" → emittedSku (some s) vid = s) := by
  refine ⟨fun s => rfl, fun n => rfl, fun vid => rfl, fun vid => rfl, fun s vid hs => ?_⟩
  simp [emittedSku, hs]

/-- C5 (witness): the amended identifier rule evaluated at a concrete
nonempty sku. -/
theorem c5_identifier_amended_witness :
    "SKU-1" ≠ "" ∧ emittedSku (some "SKU-1") (JsId.num 42) = "SKU-1" :=
  ⟨by decide, c5_identifier_amended.2.2.2.2 "SKU-1" (JsId.num 42) (by decide)⟩

/-- C7: the resolver is claimed to strip query-string parameters from the
seed before requesting robots.txt; the `URLSearchParams.forEach` callback
receives each entry's value (not its name), so `delete` is called with the
value and a parameter `a=b` survives the stripping loop — evaluated here at
the failing input `?a=b`. -/
theorem c7_robots_query_not_stripped :
    robotsRequestParams [("a", "b")] = [("a", "b")] ∧
    robotsRequestParams [("a", "b")] ≠ [] := by
  refine ⟨by decide, by decide⟩

/-- C8: on a product-path URL (and not a product-sitemap URL), the filter
decision is the AND-reduction of the default acceptance with every boolean
the hook passes to the callback: no calls leave it true, repeating a value
changes nothing, and a single false forces the decision false regardless of
any other calls. -/
theorem c8_filter_and_reduction (url : String)
    (hp : isProductUrl url = true) (hs : isSitemapProductsUrl url = false) :
    sitemapFilterDecision url [] = true ∧
    (∀ calls, sitemapFilterDecision url calls = calls.all id) ∧
    (∀ pre post (b : Bool),
      sitemapFilterDecision url (pre ++ b :: b :: post) = sitemapFilterDecision url (pre ++ b :: post)) ∧
    (∀ pre post, sitemapFilterDecision url (pre ++ false :: post) = false) := by
  have hd : ∀ calls, sitemapFilterDecision url calls = calls.all id := by
    intro calls
    simp [sitemapFilterDecision, hp, hs, filterAccum_eq_all]
  refine ⟨hd [], hd, fun pre post b => ?_, fun pre post => ?_⟩
  · rw [hd, hd]
    simp only [List.all_append, List.all_cons]
    cases b <;> simp
  · rw [hd]
    simp

/-- C8 (witness): the AND-reduction behavior evaluated on a concrete
product URL and concrete call lists. -/
theorem c8_filter_and_reduction_witness :
    isProductUrl "https://shop.example/products/x" = true ∧
    isSitemapProductsUrl "https://shop.example/products/x" = false ∧
    sitemapFilterDecision "https://shop.example/products/x" [] = true ∧
    sitemapFilterDecision "https://shop.example/products/x" [true, false, true] = false := by
  have h := c8_filter_and_reduction "https://shop.example/products/x" (by decide) (by decide)
  exact ⟨by decide, by decide, h.1, by rw [h.2.1]; decide⟩

/-- C4 (counterexample): the claim asserts that a pre-split list of tags is
accepted without raising; a list value reaches `.split`, which does not
exist on arrays, so the code throws a TypeError at that input. -/
theorem c4_tags_cex :
    tagsOf (JTags.tarr ["a", "b"]) = Except.error "TypeError: product.tags.split is not a function" := rfl

/-- C4 (amended): tag normalization accepts a comma-and-whitespace-delimited
string (an absent value is treated as the empty string), producing the split
pieces with duplicates removed preserving first occurrence and empty
entries dropped, without raising; a pre-split list input, however, raises a
TypeError. -/
theorem c4_tags_amended :
    (∀ s, tagsOf (JTags.tstr s) = Except.ok (uniqueNonEmptyArray (splitCommaWs s))) ∧
    (∀ s, (uniqueNonEmptyArray (splitCommaWs s)).Nodup) ∧
    (∀ s, "" ∉ uniqueNonEmptyArray (splitCommaWs s)) ∧
    (∀ s, (uniqueNonEmptyArray (splitCommaWs s)).Sublist (splitCommaWs s)) ∧
    (∀ s t, t ∈ splitCommaWs s → t ≠ "" → t ∈ uniqueNonEmptyArray (splitCommaWs s)) ∧
    tagsOf JTags.tabsent = Except.ok [] ∧
    (∀ xs, ∃ e, tagsOf (JTags.tarr xs) = Except.error e) := by
  refine ⟨fun s => rfl, fun s => uniqueNonEmptyArray_nodup _, fun s h => ?_,
    fun s => uniqueNonEmptyArray_sublist _, fun s t ht hne => ?_, rfl,
    fun xs => ⟨"TypeError: product.tags.split is not a function", rfl⟩⟩
  · exact ((uniqueNonEmptyArray_mem _ _).mp h).2 rfl
  · exact (uniqueNonEmptyArray_mem _ _).mpr ⟨ht, hne⟩

/-- C4 (witness): the amended tag rule evaluated at a concrete delimited
string with a repeat, an empty piece, and trailing whitespace. -/
theorem c4_tags_amended_witness :
    "b" ∈ splitCommaWs "a, b,a,,c " ∧ "b" ≠ "" ∧
    "b" ∈ uniqueNonEmptyArray (splitCommaWs "a, b,a,,c ") ∧
    tagsOf (JTags.tstr "a, b,a,,c ") = Except.ok ["a", "b", "c "] :=
  ⟨by decide, by decide,
   c4_tags_amended.2.2.2.2.1 "a, b,a,,c " "b" (by decide) (by decide), by decide⟩

/-- C6 (counterexample): the claim asserts that only up to three ordered
option slots are walked; on a product with four declared options and a
variant with four truthy values the code records the fourth option (Style)
in both the composite name and the props. -/
theorem c6_variant_attributes_cex :
    getVariantAttributes ⟨[some "Red", some "M", some "Wool", some "Modern"]⟩
      [⟨"Color"⟩, ⟨"Size"⟩, ⟨"Material"⟩, ⟨"Style"⟩] =
    ("Color: Red / Size: M / Material: Wool / Style: Modern",
     [("color", "Red"), ("size", "M"), ("material", "Wool"), ("style", "Modern")]) := by
  decide

/-- C6 (amended): if the first declared option name matches the
case-insensitive default/title sentinel the result is name "Default" with
empty props for every variant; otherwise the loop walks ALL declared option
slots in order (not only the first three), and for each slot whose variant
value is truthy records a lowercase-option-name → value property and an
"OptionName: value" fragment, the fragments joined by " / ". -/
theorem c6_variant_attributes_amended :
    (∀ (variant : VariantOpts) (options : List ProductOption),
      defaultSentinel (stringifyOptName ((options.head?).map ProductOption.name)) = true →
      getVariantAttributes variant options = ("Default", [])) ∧
    (∀ (variant : VariantOpts) (options : List ProductOption),
      defaultSentinel (stringifyOptName ((options.head?).map ProductOption.name)) = false →
      getVariantAttributes variant options =
        (String.intercalate " / "
          ((truthyOptionPairs variant options.enum).map (fun p => p.1.name ++ ": " ++ p.2)),
         (truthyOptionPairs variant options.enum).map (fun p => (jsToLower p.1.name, p.2)))) := by
  constructor
  · intro variant options h
    simp [getVariantAttributes, h]
  · intro variant options h
    simp [getVariantAttributes, h, collectAttrs_eq]

/-- C6 (witness): the end-to-end scenario — options Color and Size with
variant values Red and M give name "Color: Red / Size: M" and props color →
Red, size → M. -/
theorem c6_variant_attributes_amended_witness :
    defaultSentinel (stringifyOptName ((([⟨"Color"⟩, ⟨"Size"⟩] : List ProductOption).head?).map ProductOption.name)) = false ∧
    getVariantAttributes ⟨[some "Red", some "M"]⟩ [⟨"Color"⟩, ⟨"Size"⟩] =
      (String.intercalate " / "
        ((truthyOptionPairs ⟨[some "Red", some "M"]⟩ ([⟨"Color"⟩, ⟨"Size"⟩] : List ProductOption).enum).map
          (fun p => p.1.name ++ ": " ++ p.2)),
       (truthyOptionPairs ⟨[some "Red", some "M"]⟩ ([⟨"Color"⟩, ⟨"Size"⟩] : List ProductOption).enum).map
          (fun p => (jsToLower p.1.name, p.2))) ∧
    getVariantAttributes ⟨[some "Red", some "M"]⟩ [⟨"Color"⟩, ⟨"Size"⟩] =
      ("Color: Red / Size: M", [("color", "Red"), ("size", "M")]) :=
  ⟨by decide,
   c6_variant_attributes_amended.2 ⟨[some "Red", some "M"]⟩ [⟨"Color"⟩, ⟨"Size"⟩] (by decide),
   by decide⟩

/-- C3: each candidate surviving map and filter is passed to the user hook
exactly once with the `{data, item}` payload; an array result forwards
exactly its non-null elements to the emit step, a null result suppresses
emission, the candidate returned unchanged emits exactly that record, and a
non-null result is never suppressed while a null is always suppressed. -/
theorem c3_output_hook_fanout (mapFn : JValue → JValue) (f : JValue → JValue → Bool)
    (hook : JValue → JValue → JValue) (data item : JValue)
    (hmap : mapFn data = item) (hitem : isArray item = false) (hf : f data item = true) :
    (extendFunctionRun mapFn (some f) hook data).1 = [(data, item)] ∧
    (∀ xs, hook data item = JValue.varr xs →
      (extendFunctionRun mapFn (some f) hook data).2 = xs.filter (fun x => !isNullV x)) ∧
    (∀ xs, hook data item = JValue.varr xs → (∀ x ∈ xs, isNullV x = false) →
      (extendFunctionRun mapFn (some f) hook data).2 = xs) ∧
    (hook data item = JValue.vnull → (extendFunctionRun mapFn (some f) hook data).2 = []) ∧
    (∀ v, hook data item = v → isArray v = false → isNullV v = false →
      (extendFunctionRun mapFn (some f) hook data).2 = [v]) ∧
    (hook data item = item → isNullV item = false →
      (extendFunctionRun mapFn (some f) hook data).2 = [item]) := by
  have hsplit : splitMap mapFn data = [item] := by
    rw [splitMap, hmap]
    cases item <;> simp_all [isArray]
  have hrun : extendFunctionRun mapFn (some f) hook data =
      ([(data, item)], emitForItem hook data item) := by
    simp [extendFunctionRun, hsplit, hf]
  refine ⟨by rw [hrun], fun xs hxs => ?_, fun xs hxs hnn => ?_, fun hn => ?_,
    fun v hv hva hvn => ?_, fun hid hin => ?_⟩
  · rw [hrun]
    simp [emitForItem, normalizeResult, hxs]
  · rw [hrun]
    simp only [emitForItem, normalizeResult, hxs]
    exact List.filter_eq_self.mpr (fun a ha => by rw [hnn a ha]; rfl)
  · rw [hrun]
    simp [emitForItem, normalizeResult, hn, isNullV]
  · rw [hrun]
    simp only [emitForItem, hv]
    cases v <;> simp_all [normalizeResult, isArray, isNullV]
  · rw [hrun]
    simp only [emitForItem, hid]
    cases item <;> simp_all [normalizeResult, isArray, isNullV]

/-- C3 (witness): a hook returning an array of two records from one
surviving candidate yields exactly those two emitted records. -/
theorem c3_output_hook_fanout_witness :
    (fun _ : JValue => JValue.vrec 9) (JValue.vrec 0) = JValue.vrec 9 ∧
    isArray (JValue.vrec 9) = false ∧
    (fun _ _ : JValue => true) (JValue.vrec 0) (JValue.vrec 9) = true ∧
    (extendFunctionRun (fun _ => JValue.vrec 9) (some (fun _ _ => true))
      (fun _ _ => JValue.varr [JValue.vrec 1, JValue.vrec 2]) (JValue.vrec 0)).2 =
      [JValue.vrec 1, JValue.vrec 2] :=
  ⟨rfl, rfl, rfl,
   (c3_output_hook_fanout (fun _ => JValue.vrec 9) (fun _ _ => true)
      (fun _ _ => JValue.varr [JValue.vrec 1, JValue.vrec 2]) (JValue.vrec 0) (JValue.vrec 9)
      rfl rfl rfl).2.2.1 [JValue.vrec 1, JValue.vrec 2] rfl
      (by
        intro x hx
        simp only [List.mem_cons, List.not_mem_nil, or_false] at hx
        rcases hx with h | h <;> subst h <;> rfl)⟩

/-- C2 (counterexample): the claim asserts that re-adding the mapped result
of the same leaf URL discovered from a second branch is a no-op on the
result set; in the two-branch scenario the same product leaf is accepted
from both roots and the final set holds TWO members carrying the same URL
(the JS `Set` compares the freshly allocated mapped objects by reference). -/
theorem c2_dedup_cex :
    twoBranchRun.urls =
      [(0, ⟨"https://shop.example/products/p.json", "https://shop.example/products/p", "JSON"⟩),
       (1, ⟨"https://shop.example/products/p.json", "https://shop.example/products/p", "JSON"⟩)] ∧
    twoBranchRun.addedUrls =
      ["https://shop.example/products/p", "https://shop.example/products/p"] := by
  constructor
  · decide
  · decide

/-- C2 (amended): the result set deduplicates by object identity, and `map`
allocates a fresh target per accepted leaf occurrence, so no addition
collapses: the final target set is exactly the map image of the accepted
leaf occurrence list (one member per occurrence), and re-discovering the
same leaf URL from a second index branch therefore appends a second target
with the same URL rather than being a no-op. -/
theorem c2_target_set_amended (f : String → Bool) (mapFn : String → CrawlTarget)
    (limit : ℕ) (docs : String → SitemapDoc) (fuel : ℕ) (seeds : List String) :
    (runTraversal f mapFn limit docs fuel seeds initTravState).urls.map Prod.snd =
      (runTraversal f mapFn limit docs fuel seeds initTravState).addedUrls.map mapFn :=
  runTraversal_lockstep f mapFn limit docs fuel seeds initTravState (by simp [initTravState])

/-- C9: a sitemap index URL rejected by the filter (and not itself a seed
root) is never enqueued as a work item, never has its document enumerated,
and never appears in the result set; indexes, accepted or not, are never
added to the result set directly (the index loop leaves it untouched), and
every result entry passed the filter. -/
theorem c9_rejected_index_isolated (f : String → Bool) (mapFn : String → CrawlTarget)
    (limit : ℕ) (docs : String → SitemapDoc) (fuel : ℕ) (seeds : List String) (u : String)
    (hu : f u = false) (hseed : u ∉ seeds) :
    u ∉ (runTraversal f mapFn limit docs fuel seeds initTravState).queued ∧
    u ∉ (runTraversal f mapFn limit docs fuel seeds initTravState).processed ∧
    u ∉ (runTraversal f mapFn limit docs fuel seeds initTravState).addedUrls ∧
    (∀ ls st, (processIndexes f ls st).addedUrls = st.addedUrls) ∧
    (∀ v, v ∈ (runTraversal f mapFn limit docs fuel seeds initTravState).addedUrls → f v = true) := by
  have h := runTraversal_avoids f mapFn limit docs u hu fuel seeds initTravState hseed
    (by simp [initTravState]) (by simp [initTravState]) (by simp [initTravState])
  exact ⟨h.1, h.2.1, h.2.2, processIndexes_addedUrls f,
    runTraversal_addedUrls_filter f mapFn limit docs fuel seeds initTravState
      (by simp [initTravState])⟩

/-- C9 (witness): in the concrete scenario the unrelated blog sitemap index
is rejected by the orchestrator's default filter, is never enqueued, never
enumerated, and never reaches the result set, while the accepted product
sitemap branch still yields its product leaf. -/
theorem c9_rejected_index_isolated_witness :
    defaultSitemapFilter "https://shop.example/blog-sitemap.xml" = false ∧
    "https://shop.example/blog-sitemap.xml" ∉ ["https://shop.example/sitemap.xml"] ∧
    ("https://shop.example/blog-sitemap.xml" ∉
      (runTraversal defaultSitemapFilter (orchestratorMap false) 0 rejectedIndexDocs 5
        ["https://shop.example/sitemap.xml"] initTravState).queued ∧
     "https://shop.example/blog-sitemap.xml" ∉
      (runTraversal defaultSitemapFilter (orchestratorMap false) 0 rejectedIndexDocs 5
        ["https://shop.example/sitemap.xml"] initTravState).processed ∧
     "https://shop.example/blog-sitemap.xml" ∉
      (runTraversal defaultSitemapFilter (orchestratorMap false) 0 rejectedIndexDocs 5
        ["https://shop.example/sitemap.xml"] initTravState).addedUrls) ∧
    rejectedIndexRun.addedUrls = ["https://shop.example/products/p1"] :=
  ⟨by decide, by decide,
   (by
      have h := c9_rejected_index_isolated defaultSitemapFilter (orchestratorMap false) 0
        rejectedIndexDocs 5 ["https://shop.example/sitemap.xml"]
        "https://shop.example/blog-sitemap.xml" (by decide) (by decide)
      exact ⟨h.1, h.2.1, h.2.2.1⟩),
   by decide⟩
